import Mathlib

/-!
Verification development for the PhysicalQuantities unit-algebra engine
(PhysicalQuantities/Unit.py).

Modelling conventions.

Numbers: Python float values are modelled as exact rationals. Division on
the rationals is the total Lean division (q / 0 = 0); unit factors are
nonzero for every unit the system builds, and the theorems that need a
nonzero factor carry it as a hypothesis. The single place where a Python
ZeroDivisionError is reachable with meaningful input, the fractional
branch of PhysicalUnit.__pow__ (the expressions 1./other and x % rounded,
reachable at exponent 0.0), is modelled explicitly by the error value
Err.zeroDivisionError.

Name multisets: the NumberDict type comes from the external NDict module,
which is not part of this repository. Modelled from the spec: a name
multiset maps each symbol to an integer power; merge sums powers and
difference subtracts them. We represent it as a list of (symbol, power)
pairs where the power of a symbol is the sum of all entries carrying it;
merge is concatenation and difference concatenates negated entries. Every
unit stored in the registry has its names overwritten to a one-entry
canonical form by set_name before insertion, so the representation of
intermediate multisets is never observable in a registry state.

State: the Python module keeps a global dict unit_table whose values are
PhysicalUnit objects (plus the raw float pi), and addUnit can mutate a
unit object that the table already holds. We model the object graph with
an explicit heap: RegState carries a table from name to entry (a heap
reference or a raw number), a heap from reference to unit value, and an
allocation counter.

Expressions: findUnit and addUnit hand the input text to the Python
builtin eval with unit_table as the global namespace. We model evaluation
over an abstract syntax tree UExpr. Because the Python eval grammar is far
larger than the four arithmetic operators, UExpr also contains attribute
access, and the evaluator gives it the Python semantics; this is what
settles the claim about evaluator safety.
-/

set_option maxRecDepth 40000

/-- Error kinds raised by the unit engine, following the taxonomy of the
specification. Both UnitError messages of the fractional-power branch
(Illegal exponent, and Only integer and inverse integer exponents allowed)
are IllegalExponent in the specification and are mapped to
illegalExponent. zeroDivisionError models the Python ZeroDivisionError,
which is not a UnitError. notAUnit models the is-not-a-unit UnitError of
findUnit and the AttributeError of set_name on a non-unit. typeError
models a Python TypeError on operands no overload accepts.
floatPowerOutsideModel marks the one evaluator path (a unit raised to a
float power inside an expression) whose result factor is a real root and
so lies outside this rational-valued evaluator; no expression in the
repository reaches it, and PhysicalUnit.powFloat models that branch. -/
inductive Err where
  | incompatibleDimensions
  | nonAffineCombination
  | illegalExponent
  | nonExpressibleConversion
  | unknownUnit
  | duplicateUnit
  | notAUnit
  | zeroDivisionError
  | typeError
  | floatPowerOutsideModel
deriving DecidableEq, Repr

/-- Abstract syntax of the expressions handed to the Python eval builtin by
findUnit and addUnit: identifiers resolved in unit_table, integer and
float literals, the operators *, / and **, and (because Python eval
accepts the full expression grammar) attribute access. Parenthesisation is
implicit in the tree shape. -/
inductive UExpr where
  | ident (s : String)
  | ilit (n : ℤ)
  | flit (q : ℚ)
  | mul (a b : UExpr)
  | div (a b : UExpr)
  | pow (a b : UExpr)
  | attr (e : UExpr) (fld : String)
deriving DecidableEq, Repr, Inhabited

/-- Value of the baseunit attribute of a unit. The Python constructor sets
self.baseunit = self (selfRef); addUnit overwrites it with the unit
argument, which is the expression string for textual input (exprStr, the
tree standing for the string) or the object itself for object input
(selfRef, since newunit is that object), or with the baseunit keyword
argument (a heap reference, or null for the None default) when
prefixed is true. -/
inductive BaseRef where
  | selfRef
  | ref (r : ℕ)
  | exprStr (e : UExpr)
  | null
deriving DecidableEq, Repr, Inhabited

/-- Name multiset: list of (symbol, power) entries; the power of a symbol
is the sum of the entries carrying it. Modelled from the spec (the NDict
module is external to the repository). -/
abbrev NDict := List (String × ℤ)

/-- Power of symbol s in the multiset: sum of all entries for s. -/
def ndGet (d : NDict) (s : String) : ℤ :=
  ((d.filter (fun kv => kv.1 = s)).map (fun kv => kv.2)).sum

/-- Merge of two name multisets (NumberDict addition: powers add). -/
def ndAdd (a b : NDict) : NDict := a ++ b

/-- Negation of a name multiset. -/
def ndNeg (a : NDict) : NDict := a.map (fun kv => (kv.1, -kv.2))

/-- Difference of two name multisets (NumberDict subtraction). -/
def ndSub (a b : NDict) : NDict := a ++ ndNeg b

/-- Scalar multiple of a name multiset (NumberDict scalar multiplication,
used by the integer-power branch). -/
def ndSMul (n : ℤ) (a : NDict) : NDict := a.map (fun kv => (kv.1, n * kv.2))

/-- Quotient of a name multiset by an integer (NumberDict division, used
by the fractional-power branch when every power is divisible). -/
def ndDivAll (a : NDict) (r : ℤ) : NDict := a.map (fun kv => (kv.1, kv.2 / r))

/-- The PhysicalUnit data: a name multiset, a scale factor, the nine
integer exponents of the SI base dimensions, an additive offset, and the
metadata fields url, comment, prefixed and baseunit, mirroring the
attributes set by PhysicalUnit.__init__. -/
structure PhysicalUnit where
  names : NDict
  factor : ℚ
  powers : List ℤ
  offset : ℚ
  url : String
  comment : String
  prefixed : Bool
  baseunit : BaseRef
deriving DecidableEq, Repr, Inhabited

/-- Constructor call PhysicalUnit(name, factor, powers, offset, url,
comment) with a single string name, which the shorthand branch of
__init__ turns into the one-entry multiset, and with prefixed = False and
baseunit = self. -/
def mkUnit (name : String) (factor : ℚ) (powers : List ℤ) (offset : ℚ)
    (url comment : String) : PhysicalUnit :=
  { names := [(name, 1)], factor := factor, powers := powers,
    offset := offset, url := url, comment := comment,
    prefixed := false, baseunit := BaseRef.selfRef }

/-- Method set_name: replace the name multiset by the canonical one-entry
multiset for the given name. -/
def PhysicalUnit.set_name (u : PhysicalUnit) (name : String) : PhysicalUnit :=
  { u with names := [(name, 1)] }

/-- Property is_dimensionless: no base dimension carries a nonzero
exponent. -/
def PhysicalUnit.is_dimensionless (u : PhysicalUnit) : Bool :=
  u.powers.all (fun x => x == 0)

/-- Property is_angle as the source computes it: the planar-angle exponent
(index 7) is 1 and the exponents sum to 1. -/
def PhysicalUnit.is_angle (u : PhysicalUnit) : Bool :=
  u.powers.getD 7 0 == 1 && u.powers.sum == 1

/-- Product of two units (the branch of __mul__ where the right operand is
a PhysicalUnit): rejected when either offset is nonzero, otherwise a fresh
unit with merged names, multiplied factors and elementwise-summed
exponents. -/
def PhysicalUnit.mul (self other : PhysicalUnit) : Except Err PhysicalUnit :=
  if self.offset ≠ 0 ∨ other.offset ≠ 0 then .error .nonAffineCombination
  else .ok { names := ndAdd self.names other.names,
             factor := self.factor * other.factor,
             powers := List.zipWith (fun a b => a + b) self.powers other.powers,
             offset := 0, url := "", comment := "",
             prefixed := false, baseunit := BaseRef.selfRef }

/-- Product of a unit and a plain number (the scalar branch of __mul__ and
__rmul__). The argument ckey is the Python str of the number, recorded as
a name with power 1. -/
def PhysicalUnit.mulScalar (self : PhysicalUnit) (c : ℚ) (ckey : String) :
    Except Err PhysicalUnit :=
  if self.offset ≠ 0 then .error .nonAffineCombination
  else .ok { names := ndAdd self.names [(ckey, 1)],
             factor := self.factor * c,
             powers := self.powers,
             offset := self.offset * c, url := "", comment := "",
             prefixed := false, baseunit := BaseRef.selfRef }

/-- Quotient of two units (the branch of __div__ where the right operand
is a PhysicalUnit). -/
def PhysicalUnit.div (self other : PhysicalUnit) : Except Err PhysicalUnit :=
  if self.offset ≠ 0 ∨ other.offset ≠ 0 then .error .nonAffineCombination
  else .ok { names := ndSub self.names other.names,
             factor := self.factor / other.factor,
             powers := List.zipWith (fun a b => a - b) self.powers other.powers,
             offset := 0, url := "", comment := "",
             prefixed := false, baseunit := BaseRef.selfRef }

/-- Quotient of a unit by a plain number (the scalar branch of __div__);
the constructed unit takes the default offset 0. -/
def PhysicalUnit.divScalar (self : PhysicalUnit) (c : ℚ) (ckey : String) :
    Except Err PhysicalUnit :=
  if self.offset ≠ 0 then .error .nonAffineCombination
  else .ok { names := ndAdd self.names [(ckey, -1)],
             factor := self.factor / c,
             powers := self.powers,
             offset := 0, url := "", comment := "",
             prefixed := false, baseunit := BaseRef.selfRef }

/-- Quotient of a plain number by a unit (the scalar branch of __rdiv__). -/
def PhysicalUnit.rdivScalar (self : PhysicalUnit) (c : ℚ) (ckey : String) :
    Except Err PhysicalUnit :=
  if self.offset ≠ 0 then .error .nonAffineCombination
  else .ok { names := ndSub [(ckey, 1)] self.names,
             factor := c / self.factor,
             powers := self.powers.map (fun x => -x),
             offset := 0, url := "", comment := "",
             prefixed := false, baseunit := BaseRef.selfRef }

/-- Integer power of a unit (the isinstance(other, int) branch of
__pow__). -/
def PhysicalUnit.powInt (self : PhysicalUnit) (n : ℤ) : Except Err PhysicalUnit :=
  if self.offset ≠ 0 then .error .nonAffineCombination
  else .ok { names := ndSMul n self.names,
             factor := self.factor ^ n,
             powers := self.powers.map (fun x => x * n),
             offset := 0, url := "", comment := "",
             prefixed := false, baseunit := BaseRef.selfRef }

/-- Name part of the unit returned by the fractional-power branch: either
every name power was divisible by the root and the multiset was divided,
or the source collapses the names into a synthetic multiset built from the
Python str of the new float factor and the base dimension names. The
specification leaves that string form open (design note on synthetic
names), no claim concerns it, and we record only that the synthetic branch
was taken. -/
inductive RootNames where
  | divided (d : NDict)
  | synthetic

/-- Numeric content of the unit returned by the fractional-power branch of
__pow__; the factor is a real number since it is pow(factor, e) for a
fractional float e. -/
structure RootUnit where
  names : RootNames
  factor : ℝ
  powers : List ℤ

/-- Fractional power of a unit (the isinstance(other, float) branch of
__pow__): with inv = 1/e and rounded = floor(inv + 1/2), when inv is
within 1e-10 of rounded and every dimension exponent is divisible by
rounded, the exponent vector is divided by rounded and the factor becomes
pow(factor, e); otherwise UnitError. The Python expressions 1./e at e = 0
and x % rounded at rounded = 0 raise ZeroDivisionError, which this
definition makes explicit. -/
noncomputable def PhysicalUnit.powFloat (self : PhysicalUnit) (e : ℚ) :
    Except Err RootUnit :=
  if self.offset ≠ 0 then .error .nonAffineCombination
  else if e = 0 then .error .zeroDivisionError
  else
    if |1 / e - ((⌊1 / e + 1 / 2⌋ : ℤ) : ℚ)| < 1 / 10 ^ 10 then
      if (⌊1 / e + 1 / 2⌋ : ℤ) = 0 then .error .zeroDivisionError
      else if self.powers.all (fun x => x % ⌊1 / e + 1 / 2⌋ == 0) then
        if self.names.all (fun kv => kv.2 % ⌊1 / e + 1 / 2⌋ == 0) then
          .ok { names := RootNames.divided (ndDivAll self.names ⌊1 / e + 1 / 2⌋),
                factor := Real.rpow (self.factor : ℝ) (e : ℝ),
                powers := self.powers.map (fun x => x / ⌊1 / e + 1 / 2⌋) }
        else
          .ok { names := RootNames.synthetic,
                factor := Real.rpow (self.factor : ℝ) (e : ℝ),
                powers := self.powers.map (fun x => x / ⌊1 / e + 1 / 2⌋) }
      else .error .illegalExponent
    else .error .illegalExponent

/-- Method conversion_factor_to: identical exponent vectors required; a
pure scale exists unless the offsets differ while the factors also
differ. -/
def PhysicalUnit.conversion_factor_to (self other : PhysicalUnit) : Except Err ℚ :=
  if self.powers ≠ other.powers then .error .incompatibleDimensions
  else if self.offset ≠ other.offset ∧ self.factor ≠ other.factor then
    .error .nonExpressibleConversion
  else .ok (self.factor / other.factor)

/-- Method conversion_tuple_to: identical exponent vectors required;
returns the scale and offset of the affine conversion map. -/
def PhysicalUnit.conversion_tuple_to (self other : PhysicalUnit) :
    Except Err (ℚ × ℚ) :=
  if self.powers ≠ other.powers then .error .incompatibleDimensions
  else .ok (self.factor / other.factor,
            self.offset - other.offset * other.factor / self.factor)

/-- Helper convertValue: convert a numeric value between two units through
their conversion tuple. -/
def convertValue (value : ℚ) (src target : PhysicalUnit) : Except Err ℚ :=
  match src.conversion_tuple_to target with
  | .error er => .error er
  | .ok (factor, offset) => .ok ((value + offset) * factor)

/-- Base-unit value denoted by the value v expressed in unit u: the claim
text defines it as (v + offset) * factor. -/
def baseValue (u : PhysicalUnit) (v : ℚ) : ℚ := (v + u.offset) * u.factor

example : ndGet (ndAdd [("m", 1)] [("s", -1)]) "m" = 1 := by decide
example : (mkUnit "m" 1 [1,0,0,0,0,0,0,0,0] 0 "" "").is_angle = false := by decide

/-! Helper lemmas about name multisets and exponent vectors. -/

lemma ndGet_ndAdd (a b : NDict) (s : String) :
    ndGet (ndAdd a b) s = ndGet a s + ndGet b s := by
  simp [ndGet, ndAdd, List.filter_append]

lemma getD_zipWith_add :
    ∀ (l1 l2 : List ℤ), l1.length = l2.length → ∀ i : ℕ,
      (List.zipWith (fun a b => a + b) l1 l2).getD i 0 =
        l1.getD i 0 + l2.getD i 0 := by
  intro l1
  induction l1 with
  | nil =>
    intro l2 h i
    cases l2 with
    | nil => simp
    | cons y ys => simp at h
  | cons x xs ih =>
    intro l2 h i
    cases l2 with
    | nil => simp at h
    | cons y ys =>
      cases i with
      | zero => simp
      | succ j => simpa using ih ys (by simpa using h) j

lemma emod_eq_zero_iff_dvd (x r : ℤ) : x % r = 0 ↔ r ∣ x :=
  ⟨Int.dvd_of_emod_eq_zero, Int.emod_eq_zero_of_dvd⟩

/-! Claim C2: conversion tuples. -/

/-- C2: for units with identical dimension vectors (and the nonzero
factors every real unit has, which Python needs to avoid a
ZeroDivisionError), conversion_tuple_to returns S = a.factor / b.factor
and D = a.offset - b.offset * b.factor / a.factor, and (x + D) * S is the
b-units value of the quantity whose a-units value is x, where a value v
in unit u denotes the base-unit value (v + u.offset) * u.factor. -/
theorem C2_conversion_tuple_correct (a b : PhysicalUnit)
    (hp : a.powers = b.powers) (ha : a.factor ≠ 0) (hb : b.factor ≠ 0) :
    a.conversion_tuple_to b =
      .ok (a.factor / b.factor, a.offset - b.offset * b.factor / a.factor) ∧
    ∀ x : ℚ,
      baseValue b ((x + (a.offset - b.offset * b.factor / a.factor)) *
        (a.factor / b.factor)) = baseValue a x := by
  constructor
  · simp [PhysicalUnit.conversion_tuple_to, hp]
  · intro x
    unfold baseValue
    field_simp
    ring

/-- Fixture for the C2 witness: a Celsius-like affine unit. -/
def degCW2 : PhysicalUnit := mkUnit "degC" 1 [0, 0, 0, 0, 1, 0, 0, 0, 0] (27315 / 100) "" ""

/-- Fixture for the C2 witness: a Kelvin-like unit. -/
def kelvinW2 : PhysicalUnit := mkUnit "K" 1 [0, 0, 0, 0, 1, 0, 0, 0, 0] 0 "" ""

/-- Witness for C2 at the Celsius/Kelvin pair and x = 5. -/
theorem C2_witness :
    degCW2.conversion_tuple_to kelvinW2 =
      .ok (degCW2.factor / kelvinW2.factor,
           degCW2.offset - kelvinW2.offset * kelvinW2.factor / degCW2.factor) ∧
    baseValue kelvinW2
      ((5 + (degCW2.offset - kelvinW2.offset * kelvinW2.factor / degCW2.factor)) *
        (degCW2.factor / kelvinW2.factor)) = baseValue degCW2 5 := by
  have h := C2_conversion_tuple_correct degCW2 kelvinW2 rfl
    (by norm_num [degCW2, mkUnit]) (by norm_num [kelvinW2, mkUnit])
  exact ⟨h.1, h.2 5⟩

/-! Claim C3: the is_angle predicate. -/

/-- Fixture refuting C3: planar-angle exponent 1, length exponent 1 and
time exponent -1, so the exponents still sum to 1. -/
def angleCx : PhysicalUnit := mkUnit "x" 1 [1, -1, 0, 0, 0, 0, 0, 1, 0] 0 "" ""

/-- C3 counterexample: is_angle is true on a unit whose non-angle
components are not all zero, refuting the claim that is_angle holds only
when every one of the other eight components is zero. -/
theorem C3_counterexample :
    angleCx.is_angle = true ∧
    ¬ (angleCx.powers.getD 7 0 = 1 ∧
       ∀ i ∈ ([0, 1, 2, 3, 4, 5, 6, 8] : List ℕ), angleCx.powers.getD i 0 = 0) := by
  decide

/-- C3 amended: for a 9-component dimension vector, is_angle returns true
iff the planar-angle component (index 7) equals 1 and the other eight
components sum to zero; it does not require each of them to vanish. -/
theorem C3_is_angle_amended (u : PhysicalUnit) (p0 p1 p2 p3 p4 p5 p6 p7 p8 : ℤ)
    (hl : u.powers = [p0, p1, p2, p3, p4, p5, p6, p7, p8]) :
    u.is_angle = true ↔ p7 = 1 ∧ p0 + p1 + p2 + p3 + p4 + p5 + p6 + p8 = 0 := by
  simp [PhysicalUnit.is_angle, hl]
  omega

/-- Fixture for the C3 witness: the radian-like unit. -/
def radW3 : PhysicalUnit := mkUnit "rad" 1 [0, 0, 0, 0, 0, 0, 0, 1, 0] 0 "" ""

/-- Witness for C3 at the radian dimension vector. -/
theorem C3_witness :
    radW3.is_angle = true ↔
      (1 : ℤ) = 1 ∧ (0 : ℤ) + 0 + 0 + 0 + 0 + 0 + 0 + 0 = 0 :=
  C3_is_angle_amended radW3 0 0 0 0 0 0 0 1 0 rfl

/-! Claim C4: unit multiplication. -/

/-- C4: multiplying two units fails with NonAffineCombination exactly when
either offset is nonzero, and otherwise returns a unit whose factor is the
product, whose 9-element dimension vector is the elementwise sum, and
whose names multiset gives every symbol the sum of its powers in the two
operands. -/
theorem C4_multiply_correct (a b : PhysicalUnit)
    (hla : a.powers.length = 9) (hlb : b.powers.length = 9) :
    (a.mul b = .error .nonAffineCombination ↔ a.offset ≠ 0 ∨ b.offset ≠ 0) ∧
    (a.offset = 0 → b.offset = 0 → ∃ u : PhysicalUnit,
      a.mul b = .ok u ∧
      u.factor = a.factor * b.factor ∧
      u.powers.length = 9 ∧
      (∀ i : ℕ, u.powers.getD i 0 = a.powers.getD i 0 + b.powers.getD i 0) ∧
      (∀ s : String, ndGet u.names s = ndGet a.names s + ndGet b.names s)) := by
  constructor
  · by_cases h : a.offset ≠ 0 ∨ b.offset ≠ 0
    · simp [PhysicalUnit.mul, h]
    · simp [PhysicalUnit.mul, h]
  · intro h0 h1
    have hmul : a.mul b = .ok
        { names := ndAdd a.names b.names,
          factor := a.factor * b.factor,
          powers := List.zipWith (fun x y => x + y) a.powers b.powers,
          offset := 0, url := "", comment := "",
          prefixed := false, baseunit := BaseRef.selfRef } := by
      simp [PhysicalUnit.mul, h0, h1]
    refine ⟨_, hmul, rfl, ?_, ?_, ?_⟩
    · simp [hla, hlb]
    · intro i
      exact getD_zipWith_add a.powers b.powers (hla.trans hlb.symm) i
    · intro s
      exact ndGet_ndAdd a.names b.names s

/-- Fixture for the C4 witness: the metre-like unit. -/
def mW4 : PhysicalUnit := mkUnit "m" 1 [1, 0, 0, 0, 0, 0, 0, 0, 0] 0 "" ""

/-- Fixture for the C4 witness: the second-like unit. -/
def sW4 : PhysicalUnit := mkUnit "s" 1 [0, 0, 1, 0, 0, 0, 0, 0, 0] 0 "" ""

/-- Witness for C4 at the metre and second units. -/
theorem C4_witness :
    (mW4.mul sW4 = .error .nonAffineCombination ↔ mW4.offset ≠ 0 ∨ sW4.offset ≠ 0) ∧
    (mW4.offset = 0 → sW4.offset = 0 → ∃ u : PhysicalUnit,
      mW4.mul sW4 = .ok u ∧
      u.factor = mW4.factor * sW4.factor ∧
      u.powers.length = 9 ∧
      (∀ i : ℕ, u.powers.getD i 0 = mW4.powers.getD i 0 + sW4.powers.getD i 0) ∧
      (∀ s : String, ndGet u.names s = ndGet mW4.names s + ndGet sW4.names s)) :=
  C4_multiply_correct mW4 sW4 rfl rfl

/-! Claim C5: fractional powers. -/

/-- Fixture refuting C5 at exponent 0.0: the metre-like unit. -/
def mC5 : PhysicalUnit := mkUnit "m" 1 [1, 0, 0, 0, 0, 0, 0, 0, 0] 0 "" ""

/-- C5 counterexample: at the fractional exponent 0.0 the code evaluates
1./other and raises ZeroDivisionError, not the IllegalExponent UnitError
the claim asserts. -/
theorem C5_counterexample :
    mC5.powFloat 0 = .error .zeroDivisionError ∧
    Err.zeroDivisionError ≠ Err.illegalExponent := by
  constructor
  · simp [PhysicalUnit.powFloat, mC5, mkUnit]
  · decide

/-- C5 amended: for a zero-offset unit and a nonzero exponent e, with
r = floor(1/e + 1/2) (the rounding the source uses, which agrees with
round(1/e) whenever the closeness test passes): if |1/e - r| < 1e-10,
r is nonzero and every dimension exponent is divisible by r, the result
has the dimension vector divided componentwise by r and factor
pow(factor, e); if the closeness test fails, or it passes with nonzero r
but some exponent is not divisible, the call fails with IllegalExponent;
if the closeness test passes with r = 0 (exponents beyond 1e10 in
magnitude), the call fails with ZeroDivisionError (from x % 0), and at
e = 0.0 it fails with ZeroDivisionError (from 1./e) as the counterexample
shows. -/
theorem C5_pow_fractional_amended (u : PhysicalUnit) (e : ℚ)
    (hoff : u.offset = 0) (he : e ≠ 0) :
    ((|1 / e - ((⌊1 / e + 1 / 2⌋ : ℤ) : ℚ)| < 1 / 10 ^ 10 ∧
        (⌊1 / e + 1 / 2⌋ : ℤ) ≠ 0 ∧
        (∀ x ∈ u.powers, (⌊1 / e + 1 / 2⌋ : ℤ) ∣ x)) →
      ∃ ru : RootUnit, u.powFloat e = .ok ru ∧
        ru.powers = u.powers.map (fun x => x / ⌊1 / e + 1 / 2⌋) ∧
        ru.factor = Real.rpow (u.factor : ℝ) (e : ℝ)) ∧
    (1 / 10 ^ 10 ≤ |1 / e - ((⌊1 / e + 1 / 2⌋ : ℤ) : ℚ)| →
      u.powFloat e = .error .illegalExponent) ∧
    ((|1 / e - ((⌊1 / e + 1 / 2⌋ : ℤ) : ℚ)| < 1 / 10 ^ 10 ∧
        (⌊1 / e + 1 / 2⌋ : ℤ) ≠ 0 ∧
        ¬ (∀ x ∈ u.powers, (⌊1 / e + 1 / 2⌋ : ℤ) ∣ x)) →
      u.powFloat e = .error .illegalExponent) ∧
    ((|1 / e - ((⌊1 / e + 1 / 2⌋ : ℤ) : ℚ)| < 1 / 10 ^ 10 ∧
        (⌊1 / e + 1 / 2⌋ : ℤ) = 0) →
      u.powFloat e = .error .zeroDivisionError) := by
  have hall : ∀ r : ℤ, (u.powers.all (fun x => x % r == 0) = true) ↔
      ∀ x ∈ u.powers, r ∣ x := by
    intro r
    simp [List.all_eq_true, emod_eq_zero_iff_dvd]
  refine ⟨?_, ?_, ?_, ?_⟩
  · rintro ⟨hc, hr, hdvd⟩
    rw [PhysicalUnit.powFloat]
    rw [if_neg (by simp [hoff]), if_neg (by simp [he]), if_pos hc, if_neg hr,
        if_pos ((hall _).2 hdvd)]
    by_cases hn : (u.names.all (fun kv => kv.2 % ⌊1 / e + 1 / 2⌋ == 0)) = true
    · rw [if_pos hn]
      exact ⟨_, rfl, rfl, rfl⟩
    · rw [if_neg hn]
      exact ⟨_, rfl, rfl, rfl⟩
  · intro hfar
    rw [PhysicalUnit.powFloat]
    rw [if_neg (by simp [hoff]), if_neg (by simp [he]), if_neg (not_lt.2 hfar)]
  · rintro ⟨hc, hr, hndvd⟩
    rw [PhysicalUnit.powFloat]
    rw [if_neg (by simp [hoff]), if_neg (by simp [he]), if_pos hc, if_neg hr,
        if_neg (fun hx => hndvd ((hall _).1 hx))]
  · rintro ⟨hc, hr⟩
    rw [PhysicalUnit.powFloat]
    rw [if_neg (by simp [hoff]), if_neg (by simp [he]), if_pos hc, if_pos hr]

/-- Fixture for the C5 witness: a square-metre-like unit. -/
def m2W5 : PhysicalUnit := mkUnit "m2" 1 [2, 0, 0, 0, 0, 0, 0, 0, 0] 0 "" ""

/-- Witness for C5 at the square metre and exponent one half. -/
theorem C5_witness :
    ((|1 / (1 / 2 : ℚ) - ((⌊1 / (1 / 2 : ℚ) + 1 / 2⌋ : ℤ) : ℚ)| < 1 / 10 ^ 10 ∧
        (⌊1 / (1 / 2 : ℚ) + 1 / 2⌋ : ℤ) ≠ 0 ∧
        (∀ x ∈ m2W5.powers, (⌊1 / (1 / 2 : ℚ) + 1 / 2⌋ : ℤ) ∣ x)) →
      ∃ ru : RootUnit, m2W5.powFloat (1 / 2) = .ok ru ∧
        ru.powers = m2W5.powers.map (fun x => x / ⌊1 / (1 / 2 : ℚ) + 1 / 2⌋) ∧
        ru.factor = Real.rpow (m2W5.factor : ℝ) ((1 / 2 : ℚ) : ℝ)) ∧
    (1 / 10 ^ 10 ≤ |1 / (1 / 2 : ℚ) - ((⌊1 / (1 / 2 : ℚ) + 1 / 2⌋ : ℤ) : ℚ)| →
      m2W5.powFloat (1 / 2) = .error .illegalExponent) ∧
    ((|1 / (1 / 2 : ℚ) - ((⌊1 / (1 / 2 : ℚ) + 1 / 2⌋ : ℤ) : ℚ)| < 1 / 10 ^ 10 ∧
        (⌊1 / (1 / 2 : ℚ) + 1 / 2⌋ : ℤ) ≠ 0 ∧
        ¬ (∀ x ∈ m2W5.powers, (⌊1 / (1 / 2 : ℚ) + 1 / 2⌋ : ℤ) ∣ x)) →
      m2W5.powFloat (1 / 2) = .error .illegalExponent) ∧
    ((|1 / (1 / 2 : ℚ) - ((⌊1 / (1 / 2 : ℚ) + 1 / 2⌋ : ℤ) : ℚ)| < 1 / 10 ^ 10 ∧
        (⌊1 / (1 / 2 : ℚ) + 1 / 2⌋ : ℤ) = 0) →
      m2W5.powFloat (1 / 2) = .error .zeroDivisionError) :=
  C5_pow_fractional_amended m2W5 (1 / 2) rfl (by norm_num)

/-! Claim C6: conversion_factor_to error behaviour. -/

/-- C6: conversion_factor_to fails with IncompatibleDimensions iff the
dimension vectors differ; with equal vectors it fails with
NonExpressibleConversion iff the offsets differ while the factors also
differ, and otherwise returns a.factor / b.factor. -/
theorem C6_conversion_factor_errors (a b : PhysicalUnit) :
    (a.conversion_factor_to b = .error .incompatibleDimensions ↔
      a.powers ≠ b.powers) ∧
    (a.powers = b.powers →
      ((a.conversion_factor_to b = .error .nonExpressibleConversion ↔
          a.offset ≠ b.offset ∧ a.factor ≠ b.factor) ∧
       (¬ (a.offset ≠ b.offset ∧ a.factor ≠ b.factor) →
          a.conversion_factor_to b = .ok (a.factor / b.factor)))) := by
  by_cases hp : a.powers = b.powers
  · by_cases hq : a.offset ≠ b.offset ∧ a.factor ≠ b.factor
    · simp [PhysicalUnit.conversion_factor_to, hp, hq]
    · simp [PhysicalUnit.conversion_factor_to, hp, hq]
  · simp [PhysicalUnit.conversion_factor_to, hp]

/-- Fixture for the C6 witness: the metre-like unit. -/
def mW6 : PhysicalUnit := mkUnit "m" 1 [1, 0, 0, 0, 0, 0, 0, 0, 0] 0 "" ""

/-- Fixture for the C6 witness: the kilometre-like unit. -/
def kmW6 : PhysicalUnit := mkUnit "km" 1000 [1, 0, 0, 0, 0, 0, 0, 0, 0] 0 "" ""

/-- Witness for C6 at the metre/kilometre pair. -/
theorem C6_witness :
    (mW6.conversion_factor_to kmW6 = .error .incompatibleDimensions ↔
      mW6.powers ≠ kmW6.powers) ∧
    (mW6.powers = kmW6.powers →
      ((mW6.conversion_factor_to kmW6 = .error .nonExpressibleConversion ↔
          mW6.offset ≠ kmW6.offset ∧ mW6.factor ≠ kmW6.factor) ∧
       (¬ (mW6.offset ≠ kmW6.offset ∧ mW6.factor ≠ kmW6.factor) →
          mW6.conversion_factor_to kmW6 = .ok (mW6.factor / kmW6.factor)))) :=
  C6_conversion_factor_errors mW6 kmW6

/-! Claim C8: conversion factors are mutually inverse. -/

/-- C8: whenever conversion_factor_to succeeds in both directions (which
in Python also requires the nonzero factors carried here as hypotheses,
since a zero divisor would raise ZeroDivisionError instead of returning),
the two factors multiply to exactly 1. -/
theorem C8_conversion_factor_roundtrip (a b : PhysicalUnit) (f g : ℚ)
    (ha : a.factor ≠ 0) (hb : b.factor ≠ 0)
    (h1 : a.conversion_factor_to b = .ok f)
    (h2 : b.conversion_factor_to a = .ok g) :
    f * g = 1 := by
  unfold PhysicalUnit.conversion_factor_to at h1 h2
  split_ifs at h1 h2
  simp only [Except.ok.injEq] at h1 h2
  rw [← h1, ← h2]
  field_simp

/-- Fixture for the C8 witness: the metre-like unit. -/
def mW8 : PhysicalUnit := mkUnit "m" 1 [1, 0, 0, 0, 0, 0, 0, 0, 0] 0 "" ""

/-- Fixture for the C8 witness: the kilometre-like unit. -/
def kmW8 : PhysicalUnit := mkUnit "km" 1000 [1, 0, 0, 0, 0, 0, 0, 0, 0] 0 "" ""

/-- Witness for C8 at the metre/kilometre pair. -/
theorem C8_witness :
    mW8.conversion_factor_to kmW8 = .ok (1 / 1000) ∧
    kmW8.conversion_factor_to mW8 = .ok (1000 / 1) ∧
    (1 / 1000 : ℚ) * (1000 / 1) = 1 := by
  have e1 : mW8.conversion_factor_to kmW8 = .ok (1 / 1000) := by
    with_unfolding_all rfl
  have e2 : kmW8.conversion_factor_to mW8 = .ok (1000 / 1) := by
    with_unfolding_all rfl
  exact ⟨e1, e2, C8_conversion_factor_roundtrip mW8 kmW8 (1 / 1000) (1000 / 1)
    (by norm_num [mW8, mkUnit]) (by norm_num [kmW8, mkUnit]) e1 e2⟩

/-! Registry model: table, heap, evaluator, addUnit, addPrefixed,
bootstrap. -/

/-- Entry of the registry table unit_table: a reference to a unit object
on the heap, or a raw number (the module stores the float pi under the
key pi). -/
inductive Entry where
  | ref (r : ℕ)
  | num (q : ℚ)
deriving DecidableEq, Repr, Inhabited

/-- Registry state: the name table, the heap of unit objects, and the
allocation counter for fresh references. -/
structure RegState where
  table : List (String × Entry)
  heap : List (ℕ × PhysicalUnit)
  next : ℕ
deriving DecidableEq, Repr, Inhabited

/-- Lookup in an association list (first match). -/
def alookup {κ α : Type} [DecidableEq κ] : List (κ × α) → κ → Option α
  | [], _ => none
  | kv :: t, k => if kv.1 = k then some kv.2 else alookup t k

/-- Membership test for a table key, the Python test name in unit_table. -/
def containsName (t : List (String × Entry)) (k : String) : Bool :=
  (alookup t k).isSome

/-- Overwrite the heap cell of reference r (in-place object mutation). -/
def heapSet (h : List (ℕ × PhysicalUnit)) (r : ℕ) (u : PhysicalUnit) :
    List (ℕ × PhysicalUnit) :=
  h.map (fun kv => if kv.1 = r then (r, u) else kv)

/-- Value produced by evaluating an expression: a reference to an existing
registry object (a bare name evaluates to the registry object itself), a
freshly built unit object, or a plain int or float. -/
inductive Val where
  | unitRef (r : ℕ)
  | unitVal (u : PhysicalUnit)
  | intVal (n : ℤ)
  | floatVal (q : ℚ)
deriving Repr

/-- Dereference a value to the unit it denotes, if any (the duck-typed
isPhysicalUnit test of the source, resolved through the heap). -/
def asUnit (st : RegState) : Val → Option PhysicalUnit
  | .unitRef r => alookup st.heap r
  | .unitVal u => some u
  | _ => none

/-- Python str of a float, used as the name key recorded by the scalar
branches of __mul__, __div__ and __rdiv__. The exact decimal rendering of
the original is display-only and never survives into a registry state
(set_name rewrites the names before insertion), so the Lean rendering of
the rational stands in for it. -/
def floatStr (q : ℚ) : String := toString q

/-- Multiplication of two evaluated values, following the operator
dispatch of Python: unit times unit, unit times number through the scalar
branch (with the str of the number as name key), and plain arithmetic on
numbers, where int times int stays int. -/
def applyMul (st : RegState) (x y : Val) : Except Err Val :=
  match asUnit st x, asUnit st y with
  | some u, some v => (u.mul v).map Val.unitVal
  | some u, none =>
      match y with
      | .intVal n => (u.mulScalar (n : ℚ) (toString n)).map Val.unitVal
      | .floatVal q => (u.mulScalar q (floatStr q)).map Val.unitVal
      | _ => .error .typeError
  | none, some v =>
      match x with
      | .intVal n => (v.mulScalar (n : ℚ) (toString n)).map Val.unitVal
      | .floatVal q => (v.mulScalar q (floatStr q)).map Val.unitVal
      | _ => .error .typeError
  | none, none =>
      match x, y with
      | .intVal m, .intVal n => .ok (.intVal (m * n))
      | .intVal m, .floatVal q => .ok (.floatVal ((m : ℚ) * q))
      | .floatVal q, .intVal n => .ok (.floatVal (q * (n : ℚ)))
      | .floatVal p, .floatVal q => .ok (.floatVal (p * q))
      | _, _ => .error .typeError

/-- Division of two evaluated values: unit by unit, unit by number and
number by unit through the scalar branches, and plain arithmetic on
numbers, where int by int is the Python 2 floor division. -/
def applyDiv (st : RegState) (x y : Val) : Except Err Val :=
  match asUnit st x, asUnit st y with
  | some u, some v => (u.div v).map Val.unitVal
  | some u, none =>
      match y with
      | .intVal n => (u.divScalar (n : ℚ) (toString n)).map Val.unitVal
      | .floatVal q => (u.divScalar q (floatStr q)).map Val.unitVal
      | _ => .error .typeError
  | none, some v =>
      match x with
      | .intVal n => (v.rdivScalar (n : ℚ) (toString n)).map Val.unitVal
      | .floatVal q => (v.rdivScalar q (floatStr q)).map Val.unitVal
      | _ => .error .typeError
  | none, none =>
      match x, y with
      | .intVal m, .intVal n => .ok (.intVal (Int.fdiv m n))
      | .intVal m, .floatVal q => .ok (.floatVal ((m : ℚ) / q))
      | .floatVal q, .intVal n => .ok (.floatVal (q / (n : ℚ)))
      | .floatVal p, .floatVal q => .ok (.floatVal (p / q))
      | _, _ => .error .typeError

/-- Exponentiation of two evaluated values: a unit to an int literal goes
through the integer branch of __pow__; a unit to a float exponent is the
fractional branch, whose real-root factor lies outside this
rational-valued evaluator (modelled by PhysicalUnit.powFloat; no
expression of the repository uses it); numbers exponentiate numerically,
with a negative int exponent giving a float as in Python. -/
def applyPow (st : RegState) (x y : Val) : Except Err Val :=
  match asUnit st x, asUnit st y with
  | some u, none =>
      match y with
      | .intVal n => (u.powInt n).map Val.unitVal
      | .floatVal _ => .error .floatPowerOutsideModel
      | _ => .error .typeError
  | none, none =>
      match x, y with
      | .intVal m, .intVal n =>
          if 0 ≤ n then .ok (.intVal (m ^ n.toNat))
          else .ok (.floatVal ((m : ℚ) ^ n))
      | .floatVal q, .intVal n => .ok (.floatVal (q ^ n))
      | _, _ => .error .floatPowerOutsideModel
  | _, _ => .error .typeError

/-- Evaluation of an expression against the registry, modelling the
behaviour of the Python eval builtin on the fragment of its grammar the
unit strings inhabit, plus attribute access, which the Python grammar also
accepts. A bare registry name evaluates to the registry object itself
(unitRef); the entry pi evaluates to its float. An unknown identifier is
the NameError that findUnit reports as UnknownUnit. Attribute access on a
unit reads the attribute, exactly as Python does; only the numeric
attributes are modelled. -/
def evalExpr (st : RegState) : UExpr → Except Err Val
  | .ident s =>
      match alookup st.table s with
      | some (Entry.ref r) => .ok (.unitRef r)
      | some (Entry.num q) => .ok (.floatVal q)
      | none => .error .unknownUnit
  | .ilit n => .ok (.intVal n)
  | .flit q => .ok (.floatVal q)
  | .mul a b => do applyMul st (← evalExpr st a) (← evalExpr st b)
  | .div a b => do applyDiv st (← evalExpr st a) (← evalExpr st b)
  | .pow a b => do applyPow st (← evalExpr st a) (← evalExpr st b)
  | .attr e fld =>
      match evalExpr st e with
      | .error er => .error er
      | .ok v =>
          match asUnit st v with
          | some u =>
              match fld with
              | "factor" => .ok (.floatVal u.factor)
              | "offset" => .ok (.floatVal u.offset)
              | _ => .error .typeError
          | none => .error .typeError

/-- Helper findUnit: evaluate the expression and require a unit; a
non-unit result raises the is-not-a-unit UnitError after evaluation has
already run. -/
def findUnit (st : RegState) (e : UExpr) : Except Err PhysicalUnit :=
  match evalExpr st e with
  | .error er => .error er
  | .ok v =>
      match asUnit st v with
      | some u => .ok u
      | none => .error .notAUnit

/-- Argument of addUnit: a textual expression or a unit object. -/
inductive UnitArg where
  | expr (e : UExpr)
  | obj (u : PhysicalUnit)

/-- Field updates addUnit performs on the unit it is about to register:
set_name to the canonical single name, then the comment, baseunit,
prefixed and url assignments. -/
def setFields (u : PhysicalUnit) (name comment url : String)
    (prefixed : Bool) (bu : BaseRef) : PhysicalUnit :=
  { u with names := [(name, 1)], comment := comment, url := url,
           prefixed := prefixed, baseunit := bu }

/-- Evaluation-and-mutation step of addUnit, everything after the
duplicate check and before the table insertion: obtain the unit object
(evaluating the expression for textual input) and apply the field
assignments to it. For an existing registry object (a bare name) the
mutation happens in place on the heap and the result reference is that
object; for a fresh object a new reference is allocated. The result is
the reference to register under the name, the new heap, and the new
allocation counter. -/
def addUnitEval (st : RegState) (name : String) (arg : UnitArg)
    (comment : String) (prefixed : Bool) (baseunit : BaseRef)
    (url : String) : Except Err (ℕ × List (ℕ × PhysicalUnit) × ℕ) :=
  match arg with
  | .obj u =>
      .ok (st.next,
           st.heap ++ [(st.next, setFields u name comment url prefixed
             (if prefixed then baseunit else BaseRef.selfRef))],
           st.next + 1)
  | .expr e =>
      match evalExpr st e with
      | .error er => .error er
      | .ok (.unitRef r) =>
          match alookup st.heap r with
          | some u =>
              .ok (r, heapSet st.heap r (setFields u name comment url prefixed
                     (if prefixed then baseunit else BaseRef.exprStr e)),
                   st.next)
          | none => .error .typeError
      | .ok (.unitVal u) =>
          .ok (st.next,
               st.heap ++ [(st.next, setFields u name comment url prefixed
                 (if prefixed then baseunit else BaseRef.exprStr e))],
               st.next + 1)
      | .ok (.intVal _) => .error .notAUnit
      | .ok (.floatVal _) => .error .notAUnit

/-- Function addUnit(name, unit, comment, prefixed, baseunit, url): fails
with DuplicateUnit when the name is already present (checked before
anything else, so nothing is evaluated or mutated); otherwise runs
addUnitEval and records the resulting reference in the table under the
name. The baseunit attribute receives the baseunit argument when prefixed
is true, and otherwise the unit argument itself: the expression for
textual input, the object itself (selfRef) for object input. -/
def addUnit (st : RegState) (name : String) (arg : UnitArg)
    (comment : String) (prefixed : Bool) (baseunit : BaseRef)
    (url : String) : Except Err (RegState × String) :=
  if containsName st.table name then .error .duplicateUnit
  else
    match addUnitEval st name arg comment prefixed baseunit url with
    | .error er => .error er
    | .ok (r, h2, n2) =>
        .ok ({ table := st.table ++ [(name, Entry.ref r)],
               heap := h2, next := n2 }, name)

/-- Selector between the two prefix tables of addPrefixed. -/
inductive PrefixRange where
  | engineering
  | full
deriving DecidableEq, Repr

/-- The full SI prefix table of the module (20 entries, 1e24 down to
1e-24). -/
def full_prefixes : List (String × ℚ) :=
  [("Y", 10 ^ 24), ("Z", 10 ^ 21), ("E", 10 ^ 18), ("P", 10 ^ 15),
   ("T", 10 ^ 12), ("G", 10 ^ 9), ("M", 10 ^ 6), ("k", 10 ^ 3),
   ("h", 10 ^ 2), ("da", 10), ("d", 1 / 10), ("c", 1 / 10 ^ 2),
   ("m", 1 / 10 ^ 3), ("mu", 1 / 10 ^ 6), ("n", 1 / 10 ^ 9),
   ("p", 1 / 10 ^ 12), ("f", 1 / 10 ^ 15), ("a", 1 / 10 ^ 18),
   ("z", 1 / 10 ^ 21), ("y", 1 / 10 ^ 24)]

/-- The engineering prefix table of the module (14 entries, 1e12 down to
1e-18). -/
def engineering_prefixes : List (String × ℚ) :=
  [("T", 10 ^ 12), ("G", 10 ^ 9), ("M", 10 ^ 6), ("k", 10 ^ 3),
   ("h", 10 ^ 2), ("da", 10), ("d", 1 / 10), ("c", 1 / 10 ^ 2),
   ("m", 1 / 10 ^ 3), ("mu", 1 / 10 ^ 6), ("n", 1 / 10 ^ 9),
   ("p", 1 / 10 ^ 12), ("f", 1 / 10 ^ 15), ("a", 1 / 10 ^ 18)]

/-- Loop body of addPrefixed over the selected prefix list: for each
prefix, skip the prefixed name when it is already present, and otherwise
register prefix value times the base object as a fresh prefixed unit whose
baseunit points at the base object. The base object u and its reference r
are read once before the loop, as in the source, and no loop iteration
mutates them. -/
def addPrefixedAux (uname : String) (r : ℕ) (u : PhysicalUnit) :
    RegState → List (String × ℚ) → Except Err RegState
  | st, [] => .ok st
  | st, p :: ps =>
      if containsName st.table (p.1 ++ uname) then
        addPrefixedAux uname r u st ps
      else
        match u.mulScalar p.2 (floatStr p.2) with
        | .error er => .error er
        | .ok pu =>
            match addUnit st (p.1 ++ uname) (.obj pu) "" true (BaseRef.ref r) "" with
            | .error er => .error er
            | .ok (st2, _) => addPrefixedAux uname r u st2 ps

/-- Function addPrefixed(unitname, range): select the prefix table, read
the base unit from the registry, and run the insertion loop. A missing
base name is the Python KeyError; a base entry that is not a unit object
would fail only inside the loop, collapsed here to notAUnit (no call in
the repository reaches it). -/
def addPrefixed (st : RegState) (uname : String) (range : PrefixRange) :
    Except Err RegState :=
  match alookup st.table uname with
  | some (Entry.ref r) =>
      match alookup st.heap r with
      | some u =>
          addPrefixedAux uname r u st
            (match range with
             | .engineering => engineering_prefixes
             | .full => full_prefixes)
      | none => .error .typeError
  | some (Entry.num _) => .error .notAUnit
  | none => .error .unknownUnit

/-- Names of the nine base units, in dimension order (the module-level
base_names list; the source uses it only to render the synthetic name of
a non-divisible root, a display concern outside the claims). -/
def base_names : List String :=
  ["m", "kg", "s", "A", "K", "mol", "cd", "rad", "sr"]

/-- Value of the Python float pi: the IEEE double closest to the
mathematical constant. -/
def piFloat : ℚ := 884279719003555 / 281474976710656

/-- One top-level statement of the bootstrap: an addUnit call with its
keyword arguments and an optional addPrefixed call on the returned name
(the addPrefixed(addUnit(...), range) pattern of the source), or the raw
table assignment that stores the float pi. -/
inductive Cmd where
  | add (name : String) (arg : UnitArg) (comment : String) (url : String)
      (pfx : Option PrefixRange)
  | setNum (name : String) (q : ℚ)

/-- Execution of one bootstrap statement. Top-level addUnit calls of the
bootstrap all leave prefixed at its False default and baseunit at None. -/
def doCmd (st : RegState) : Cmd → Except Err RegState
  | .add n arg c url pfx =>
      match addUnit st n arg c false BaseRef.null url with
      | .error er => .error er
      | .ok (st2, nm) =>
          match pfx with
          | none => .ok st2
          | some rng => addPrefixed st2 nm rng
  | .setNum n q => .ok { st with table := st.table ++ [(n, Entry.num q)] }

/-- The empty registry before bootstrap. -/
def initState : RegState := { table := [], heap := [], next := 0 }

/-- The bootstrap statements of the module, in source order. -/
def bootCmds : List Cmd :=
  [.add "kg" (.obj (mkUnit "kg" 1 [0, 1, 0, 0, 0, 0, 0, 0, 0] 0
      "https://en.wikipedia.org/wiki/Kilogram" "Kilogram")) "" "" none,
   .add "m" (.obj (mkUnit "m" 1 [1, 0, 0, 0, 0, 0, 0, 0, 0] 0
      "https://en.wikipedia.org/wiki/Metre" "Metre")) "" "" (some .engineering),
   .add "g" (.obj (mkUnit "g" (1 / 1000) [0, 1, 0, 0, 0, 0, 0, 0, 0] 0
      "https://en.wikipedia.org/wiki/Kilogram" "Kilogram")) "" "" (some .engineering),
   .add "s" (.obj (mkUnit "s" 1 [0, 0, 1, 0, 0, 0, 0, 0, 0] 0
      "https://en.wikipedia.org/wiki/Second" "Second")) "" "" (some .engineering),
   .add "A" (.obj (mkUnit "A" 1 [0, 0, 0, 1, 0, 0, 0, 0, 0] 0
      "https://en.wikipedia.org/wiki/Ampere" "Ampere")) "" "" (some .engineering),
   .add "K" (.obj (mkUnit "K" 1 [0, 0, 0, 0, 1, 0, 0, 0, 0] 0
      "https://en.wikipedia.org/wiki/Kelvin" "Kelvin")) "" "" (some .engineering),
   .add "mol" (.obj (mkUnit "mol" 1 [0, 0, 0, 0, 0, 1, 0, 0, 0] 0
      "https://en.wikipedia.org/wiki/Mole_(unit)" "Mol")) "" "" (some .engineering),
   .add "cd" (.obj (mkUnit "cd" 1 [0, 0, 0, 0, 0, 0, 1, 0, 0] 0
      "https://en.wikipedia.org/wiki/Candela" "Candela")) "" "" (some .engineering),
   .add "rad" (.obj (mkUnit "rad" 1 [0, 0, 0, 0, 0, 0, 0, 1, 0] 0
      "https://en.wikipedia.org/wiki/Radian" "Radian")) "" "" (some .engineering),
   .add "sr" (.obj (mkUnit "sr" 1 [0, 0, 0, 0, 0, 0, 0, 0, 1] 0
      "https://en.wikipedia.org/wiki/Steradian" "Streradian")) "" "" (some .engineering),
   .add "Hz" (.expr (.div (.ilit 1) (.ident "s"))) "Hertz"
      "https://en.wikipedia.org/wiki/Hertz" (some .engineering),
   .add "N" (.expr (.div (.mul (.ident "m") (.ident "kg"))
        (.pow (.ident "s") (.ilit 2)))) "Newton"
      "https://en.wikipedia.org/wiki/Newton_(unit)" (some .engineering),
   .add "Pa" (.expr (.div (.ident "N") (.pow (.ident "m") (.ilit 2)))) "Pascal"
      "https://en.wikipedia.org/wiki/Pascal_(unit)" (some .engineering),
   .add "J" (.expr (.mul (.ident "N") (.ident "m"))) "Joule"
      "https://en.wikipedia.org/wiki/Joule" (some .engineering),
   .add "W" (.expr (.div (.ident "J") (.ident "s"))) "Watt"
      "https://en.wikipedia.org/wiki/Watt" (some .engineering),
   .add "C" (.expr (.mul (.ident "s") (.ident "A"))) "Coulomb"
      "https://en.wikipedia.org/wiki/Coulomb" (some .engineering),
   .add "V" (.expr (.div (.ident "W") (.ident "A"))) "Volt"
      "https://en.wikipedia.org/wiki/Volt" (some .engineering),
   .add "F" (.expr (.div (.ident "C") (.ident "V"))) "Farad"
      "https://en.wikipedia.org/wiki/Farad" (some .engineering),
   .add "Ohm" (.expr (.div (.ident "V") (.ident "A"))) "Ohm"
      "https://en.wikipedia.org/wiki/Ohm_(unit)" (some .engineering),
   .add "S" (.expr (.div (.ident "A") (.ident "V"))) "Siemens"
      "https://en.wikipedia.org/wiki/Siemens_(unit)" (some .engineering),
   .add "Wb" (.expr (.mul (.ident "V") (.ident "s"))) "Weber"
      "https://en.wikipedia.org/wiki/Weber_(unit)" (some .engineering),
   .add "T" (.expr (.div (.ident "Wb") (.pow (.ident "m") (.ilit 2)))) "Tesla"
      "https://en.wikipedia.org/wiki/Tesla_(unit)" (some .engineering),
   .add "H" (.expr (.div (.ident "Wb") (.ident "A"))) "Henry"
      "https://en.wikipedia.org/wiki/Henry_(unit)" (some .engineering),
   .add "lm" (.expr (.mul (.ident "cd") (.ident "sr"))) "Lumen"
      "https://en.wikipedia.org/wiki/Lumen_(unit)" (some .engineering),
   .add "lx" (.expr (.div (.ident "lm") (.pow (.ident "m") (.ilit 2)))) "Lux"
      "https://en.wikipedia.org/wiki/Lux" (some .engineering),
   .setNum "pi" piFloat,
   .add "deg" (.expr (.div (.mul (.ident "pi") (.ident "rad")) (.ilit 180)))
      "Degree" "http://en.wikipedia.org/wiki/Degree_%28angle%29" none,
   .add "arcmin" (.expr (.div (.div (.mul (.ident "pi") (.ident "rad"))
        (.ilit 180)) (.ilit 60))) "minutes of arc" "" none,
   .add "arcsec" (.expr (.div (.div (.mul (.ident "pi") (.ident "rad"))
        (.ilit 180)) (.ilit 3600))) "seconds of arc" "" none,
   .add "min" (.expr (.mul (.ilit 60) (.ident "s"))) "Minute"
      "https://en.wikipedia.org/wiki/Hour" none,
   .add "h" (.expr (.mul (.mul (.ilit 60) (.ilit 60)) (.ident "s"))) "Hour"
      "https://en.wikipedia.org/wiki/Hour" none]

/-- The bootstrap run: the module body executed on the empty table. -/
def bootstrap : Except Err RegState := List.foldlM doCmd initState bootCmds

/-! Claim C1: the expression evaluator is not restricted to the four
operators. -/

/-- Fixture for C1: the metre unit as the registry holds it. -/
def mC1 : PhysicalUnit := mkUnit "m" 1 [1, 0, 0, 0, 0, 0, 0, 0, 0] 0
  "https://en.wikipedia.org/wiki/Metre" "Metre"

/-- Fixture for C1: a registry holding the metre. -/
def stC1 : RegState :=
  { table := [("m", Entry.ref 0)], heap := [(0, mC1)], next := 1 }

/-- C1: the source hands the input to the Python eval builtin, whose
grammar is not limited to the four operators; on the input m.factor
(an attribute access) evaluation succeeds and yields the float 1.0, so
expression evaluation can perform attribute access, refuting the claimed
restriction; findUnit raises its is-not-a-unit error only after that
evaluation has already run. -/
theorem C1_eval_performs_attribute_access :
    evalExpr stC1 (.attr (.ident "m") "factor") = .ok (.floatVal 1) ∧
    findUnit stC1 (.attr (.ident "m") "factor") = .error .notAUnit := by
  constructor
  · with_unfolding_all rfl
  · with_unfolding_all rfl

/-! Helper lemmas about table and heap lookups and about the growth of
the registry. -/

lemma alookup_append_some {κ α : Type} [DecidableEq κ] {l1 : List (κ × α)}
    (l2 : List (κ × α)) {k : κ} {v : α} (h : alookup l1 k = some v) :
    alookup (l1 ++ l2) k = some v := by
  induction l1 with
  | nil => simp [alookup] at h
  | cons kv t ih =>
      rw [List.cons_append]
      simp only [alookup] at h ⊢
      by_cases hk : kv.1 = k
      · rw [if_pos hk] at h ⊢
        exact h
      · rw [if_neg hk] at h ⊢
        exact ih h

lemma alookup_append_none {κ α : Type} [DecidableEq κ] {l1 : List (κ × α)}
    (l2 : List (κ × α)) {k : κ} (h : alookup l1 k = none) :
    alookup (l1 ++ l2) k = alookup l2 k := by
  induction l1 with
  | nil => simp
  | cons kv t ih =>
      rw [List.cons_append]
      simp only [alookup] at h ⊢
      by_cases hk : kv.1 = k
      · rw [if_pos hk] at h
        exact absurd h (by simp)
      · rw [if_neg hk] at h ⊢
        exact ih h

lemma containsName_append {t : List (String × Entry)}
    (l2 : List (String × Entry)) {k : String}
    (h : containsName t k = true) : containsName (t ++ l2) k = true := by
  unfold containsName at h ⊢
  cases hx : alookup t k with
  | none => rw [hx] at h; exact absurd h (by simp)
  | some v => rw [alookup_append_some l2 hx]; rfl

lemma containsName_false_lookup {t : List (String × Entry)} {k : String}
    (h : containsName t k = false) : alookup t k = none := by
  unfold containsName at h
  cases hx : alookup t k with
  | none => rfl
  | some v => rw [hx] at h; exact absurd h (by simp)

lemma alookup_heapSet_self {h : List (ℕ × PhysicalUnit)} {r : ℕ}
    {u0 : PhysicalUnit} (u : PhysicalUnit) (hh : alookup h r = some u0) :
    alookup (heapSet h r u) r = some u := by
  induction h with
  | nil => simp [alookup] at hh
  | cons kv t ih =>
      simp only [heapSet, List.map_cons]
      simp only [alookup] at hh
      by_cases hk : kv.1 = r
      · rw [if_pos hk]
        simp [alookup]
      · rw [if_neg hk]
        rw [if_neg hk] at hh
        simp only [alookup, if_neg hk]
        exact ih hh

lemma addUnit_ok_shape {st : RegState} {name : String} {arg : UnitArg}
    {c : String} {p : Bool} {b : BaseRef} {url : String}
    {st2 : RegState} {nm : String}
    (h : addUnit st name arg c p b url = .ok (st2, nm)) :
    nm = name ∧ containsName st.table name = false ∧
    ∃ r h2 n2, addUnitEval st name arg c p b url = .ok (r, h2, n2) ∧
      st2 = { table := st.table ++ [(name, Entry.ref r)],
              heap := h2, next := n2 } := by
  unfold addUnit at h
  by_cases hc : containsName st.table name
  · rw [if_pos hc] at h
    exact absurd h (by simp)
  · rw [if_neg hc] at h
    cases he : addUnitEval st name arg c p b url with
    | error er => rw [he] at h; exact absurd h (by simp)
    | ok t3 =>
        rw [he] at h
        obtain ⟨r, h2, n2⟩ := t3
        simp only [Except.ok.injEq, Prod.mk.injEq] at h
        exact ⟨h.2.symm, by simpa using hc, r, h2, n2, rfl, h.1.symm⟩

lemma addUnit_preserves_table {st : RegState} {name : String} {arg : UnitArg}
    {c : String} {p : Bool} {b : BaseRef} {url : String}
    {st2 : RegState} {nm : String}
    (h : addUnit st name arg c p b url = .ok (st2, nm))
    {k : String} {v : Entry} (hk : alookup st.table k = some v) :
    alookup st2.table k = some v := by
  obtain ⟨-, -, r, h2, n2, -, rfl⟩ := addUnit_ok_shape h
  exact alookup_append_some _ hk

lemma addUnit_preserves_contains {st : RegState} {name : String}
    {arg : UnitArg} {c : String} {p : Bool} {b : BaseRef} {url : String}
    {st2 : RegState} {nm : String}
    (h : addUnit st name arg c p b url = .ok (st2, nm))
    {k : String} (hk : containsName st.table k = true) :
    containsName st2.table k = true := by
  obtain ⟨-, -, r, h2, n2, -, rfl⟩ := addUnit_ok_shape h
  exact containsName_append _ hk

lemma addUnit_adds {st : RegState} {name : String} {arg : UnitArg}
    {c : String} {p : Bool} {b : BaseRef} {url : String}
    {st2 : RegState} {nm : String}
    (h : addUnit st name arg c p b url = .ok (st2, nm)) :
    containsName st2.table name = true := by
  obtain ⟨-, hc, r, h2, n2, -, rfl⟩ := addUnit_ok_shape h
  unfold containsName
  rw [alookup_append_none _ (containsName_false_lookup hc)]
  simp [alookup]

lemma addUnit_obj_preserves_heap {st : RegState} {name : String}
    {u : PhysicalUnit} {c : String} {p : Bool} {b : BaseRef} {url : String}
    {st2 : RegState} {nm : String}
    (h : addUnit st name (.obj u) c p b url = .ok (st2, nm))
    {hk : ℕ} {hv : PhysicalUnit} (hh : alookup st.heap hk = some hv) :
    alookup st2.heap hk = some hv := by
  obtain ⟨-, -, r, h2, n2, he, rfl⟩ := addUnit_ok_shape h
  simp only [addUnitEval, Except.ok.injEq, Prod.mk.injEq] at he
  obtain ⟨-, hh2, -⟩ := he
  rw [← hh2]
  exact alookup_append_some _ hh


lemma addPrefixedAux_preserves (uname : String) (r : ℕ) (u : PhysicalUnit) :
    ∀ (ps : List (String × ℚ)) (st st2 : RegState),
      addPrefixedAux uname r u st ps = .ok st2 →
      (∀ k v, alookup st.table k = some v → alookup st2.table k = some v) ∧
      (∀ hk hv, alookup st.heap hk = some hv → alookup st2.heap hk = some hv) := by
  intro ps
  induction ps with
  | nil =>
      intro st st2 h
      simp only [addPrefixedAux, Except.ok.injEq] at h
      subst h
      exact ⟨fun _ _ hk => hk, fun _ _ hh => hh⟩
  | cons p ps ih =>
      intro st st2 h
      simp only [addPrefixedAux] at h
      split at h
      · exact ih st st2 h
      · split at h
        · exact absurd h (by simp)
        · split at h
          · exact absurd h (by simp)
          · rename_i pu hm stMid nm ha
            have hrest := ih stMid st2 h
            exact ⟨fun k v hk => hrest.1 k v (addUnit_preserves_table ha hk),
                   fun hk hv hh => hrest.2 hk hv (addUnit_obj_preserves_heap ha hh)⟩

lemma contains_of_lookup_pres {stA stB : RegState}
    (hpres : ∀ k v, alookup stA.table k = some v → alookup stB.table k = some v)
    {k : String} (hk : containsName stA.table k = true) :
    containsName stB.table k = true := by
  unfold containsName at hk ⊢
  cases hx : alookup stA.table k with
  | none => rw [hx] at hk; exact absurd hk (by simp)
  | some v => rw [hpres k v hx]; rfl

lemma addPrefixedAux_covers (uname : String) (r : ℕ) (u : PhysicalUnit) :
    ∀ (ps : List (String × ℚ)) (st st2 : RegState),
      addPrefixedAux uname r u st ps = .ok st2 →
      ∀ p ∈ ps, containsName st2.table (p.1 ++ uname) = true := by
  intro ps
  induction ps with
  | nil => intro st st2 h p hp; exact absurd hp (by simp)
  | cons q ps ih =>
      intro st st2 h p hp
      simp only [addPrefixedAux] at h
      split at h
      · rename_i hc
        rcases List.mem_cons.1 hp with hpq | hpm
        · subst hpq
          exact contains_of_lookup_pres
            (addPrefixedAux_preserves uname r u ps st st2 h).1 hc
        · exact ih st st2 h p hpm
      · split at h
        · exact absurd h (by simp)
        · split at h
          · exact absurd h (by simp)
          · rename_i pu hm stMid nm ha
            rcases List.mem_cons.1 hp with hpq | hpm
            · subst hpq
              exact contains_of_lookup_pres
                (addPrefixedAux_preserves uname r u ps stMid st2 h).1
                (addUnit_adds ha)
            · exact ih stMid st2 h p hpm

lemma addPrefixedAux_noop (uname : String) (r : ℕ) (u : PhysicalUnit) :
    ∀ (ps : List (String × ℚ)) (st : RegState),
      (∀ p ∈ ps, containsName st.table (p.1 ++ uname) = true) →
      addPrefixedAux uname r u st ps = .ok st := by
  intro ps
  induction ps with
  | nil => intro st h; rfl
  | cons p ps ih =>
      intro st h
      simp only [addPrefixedAux]
      rw [if_pos (h p (List.mem_cons_self p ps))]
      exact ih st (fun q hq => h q (List.mem_cons_of_mem p hq))

lemma addPrefixed_preserves_contains {st : RegState} {uname : String}
    {rng : PrefixRange} {st2 : RegState}
    (h : addPrefixed st uname rng = .ok st2)
    {k : String} (hk : containsName st.table k = true) :
    containsName st2.table k = true := by
  unfold addPrefixed at h
  split at h
  · rename_i r ht
    split at h
    · rename_i u hh
      exact contains_of_lookup_pres
        (addPrefixedAux_preserves uname r u _ st st2 h).1 hk
    · exact absurd h (by simp)
  · exact absurd h (by simp)
  · exact absurd h (by simp)

lemma doCmd_preserves_contains {st : RegState} {c : Cmd} {st2 : RegState}
    (h : doCmd st c = .ok st2) {k : String}
    (hk : containsName st.table k = true) :
    containsName st2.table k = true := by
  cases c with
  | setNum n q =>
      simp only [doCmd, Except.ok.injEq] at h
      subst h
      exact containsName_append _ hk
  | add n arg cm url pfx =>
      simp only [doCmd] at h
      split at h
      · exact absurd h (by simp)
      · rename_i stMid nm ha
        split at h
        · simp only [Except.ok.injEq] at h
          subst h
          exact addUnit_preserves_contains ha hk
        · rename_i rng
          exact addPrefixed_preserves_contains h (addUnit_preserves_contains ha hk)

lemma foldlM_doCmd_preserves_contains :
    ∀ (cs : List Cmd) (st st2 : RegState),
      List.foldlM doCmd st cs = .ok st2 →
      ∀ k, containsName st.table k = true → containsName st2.table k = true := by
  intro cs
  induction cs with
  | nil =>
      intro st st2 h k hk
      simp only [List.foldlM_nil] at h
      cases h
      exact hk
  | cons c cs ih =>
      intro st st2 h k hk
      rw [List.foldlM_cons] at h
      cases hd : doCmd st c with
      | error er =>
          rw [hd] at h
          exact absurd h (by simp [Bind.bind, Except.bind])
      | ok stMid =>
          rw [hd] at h
          have h2 : List.foldlM doCmd stMid cs = .ok st2 := h
          exact ih stMid st2 h2 k (doCmd_preserves_contains hd hk)

lemma foldlM_cons_ok {c : Cmd} {cs : List Cmd} {st stB : RegState}
    (h : List.foldlM doCmd st (c :: cs) = .ok stB) :
    ∃ st1, doCmd st c = .ok st1 ∧ List.foldlM doCmd st1 cs = .ok stB := by
  rw [List.foldlM_cons] at h
  cases hd : doCmd st c with
  | error er =>
      rw [hd] at h
      exact absurd h (by simp [Bind.bind, Except.bind])
  | ok st1 =>
      rw [hd] at h
      exact ⟨st1, rfl, h⟩

lemma doCmd_add_contains {st st2 : RegState} {n : String} {arg : UnitArg}
    {c url : String} {pfx : Option PrefixRange}
    (h : doCmd st (.add n arg c url pfx) = .ok st2) :
    containsName st2.table n = true := by
  simp only [doCmd] at h
  split at h
  · exact absurd h (by simp)
  · rename_i stMid nm ha
    have hmid : containsName stMid.table n = true := addUnit_adds ha
    split at h
    · simp only [Except.ok.injEq] at h
      subst h
      exact hmid
    · exact addPrefixed_preserves_contains h hmid

lemma bootstrap_contains_m :
    ∀ stB : RegState, bootstrap = .ok stB → containsName stB.table "m" = true := by
  intro stB hB
  unfold bootstrap bootCmds at hB
  obtain ⟨st1, h0, hB1⟩ := foldlM_cons_ok hB
  obtain ⟨st2, h1, hB2⟩ := foldlM_cons_ok hB1
  exact foldlM_doCmd_preserves_contains _ st2 stB hB2 "m" (doCmd_add_contains h1)

/-! Claim C7: duplicate names are rejected. -/

/-- C7: addUnit on a name that is already present fails with
DuplicateUnit; the duplicate check is the first thing addUnit does, before
any evaluation or mutation, so the returned error carries no state change
(the model returns no new state on an error). In particular, on any state
produced by the bootstrap, addUnit of the name m fails the same way. -/
theorem C7_addUnit_duplicate (st : RegState) (name : String) (arg : UnitArg)
    (c : String) (p : Bool) (b : BaseRef) (url : String)
    (h : containsName st.table name = true) :
    addUnit st name arg c p b url = .error .duplicateUnit ∧
    (∀ stB : RegState, bootstrap = .ok stB →
      addUnit stB "m" arg c p b url = .error .duplicateUnit) := by
  constructor
  · unfold addUnit
    rw [if_pos h]
  · intro stB hB
    unfold addUnit
    rw [if_pos (bootstrap_contains_m stB hB)]

/-- Fixture for the C7 witness: the metre-like unit. -/
def mW7 : PhysicalUnit := mkUnit "m" 1 [1, 0, 0, 0, 0, 0, 0, 0, 0] 0 "" ""

/-- Fixture for the C7 witness: a registry already holding the name m. -/
def stW7 : RegState :=
  { table := [("m", Entry.ref 0)], heap := [(0, mW7)], next := 1 }

/-- Witness for C7 at a concrete registry that holds the name m. -/
theorem C7_witness :
    addUnit stW7 "m" (.obj mW7) "" false BaseRef.null "" =
      .error .duplicateUnit :=
  (C7_addUnit_duplicate stW7 "m" (.obj mW7) "" false BaseRef.null ""
    (by decide)).1

/-! Claim C9: addPrefixed is idempotent. -/

/-- C9: when addPrefixed succeeds, running it again with the same
arguments returns the same state unchanged, because every prefixed name is
already present and is skipped rather than re-registered or rejected. -/
theorem C9_addPrefixed_idempotent (st st2 : RegState) (uname : String)
    (rng : PrefixRange) (h : addPrefixed st uname rng = .ok st2) :
    addPrefixed st2 uname rng = .ok st2 := by
  unfold addPrefixed at h
  split at h
  · rename_i r ht
    split at h
    · rename_i u hh
      have hpres := addPrefixedAux_preserves uname r u _ st st2 h
      have ht2 : alookup st2.table uname = some (Entry.ref r) := hpres.1 _ _ ht
      have hh2 : alookup st2.heap r = some u := hpres.2 _ _ hh
      unfold addPrefixed
      simp only [ht2, hh2]
      exact addPrefixedAux_noop uname r u _ st2
        (fun p hp => addPrefixedAux_covers uname r u _ st st2 h p hp)
    · exact absurd h (by simp)
  · exact absurd h (by simp)
  · exact absurd h (by simp)

/-- Fixture for the C9 witness: the metre-like unit. -/
def mW9 : PhysicalUnit := mkUnit "m" 1 [1, 0, 0, 0, 0, 0, 0, 0, 0] 0 "" ""

/-- Fixture for the C9 witness: a registry holding only the metre. -/
def stW9 : RegState :=
  { table := [("m", Entry.ref 0)], heap := [(0, mW9)], next := 1 }

/-- State after the first addPrefixed call of the C9 witness. -/
def stW9b : RegState :=
  match addPrefixed stW9 "m" PrefixRange.engineering with
  | .ok s => s
  | .error _ => stW9

set_option maxHeartbeats 4000000 in
/-- Witness for C9: after prefixing the metre with the engineering set, a
second identical call returns the same state. -/
theorem C9_witness :
    addPrefixed stW9b "m" PrefixRange.engineering = .ok stW9b := by
  have h : addPrefixed stW9 "m" PrefixRange.engineering = .ok stW9b := by
    with_unfolding_all rfl
  exact C9_addPrefixed_idempotent stW9 stW9b "m" PrefixRange.engineering h

/-! Claim C10: addUnit with a bare registry name mutates the registry
object in place. -/

/-- C10: when the expression given to addUnit is a single bare registry
name, evaluation returns the registry object itself (the heap reference
of the old entry), and addUnit overwrites that very object in place: its
names become the canonical entry for the new name, its comment, url and
prefixed flag become the new arguments, and its baseunit becomes the unit
argument (the expression). The old table entry still points at the same
reference, so the unit it shows now carries the new name. -/
theorem C10_addUnit_bare_name_mutates (st : RegState)
    (oldn newn comment url : String) (r : ℕ) (u : PhysicalUnit)
    (hold : alookup st.table oldn = some (Entry.ref r))
    (hheap : alookup st.heap r = some u)
    (hnew : containsName st.table newn = false) :
    addUnit st newn (.expr (.ident oldn)) comment false BaseRef.null url =
      .ok ({ table := st.table ++ [(newn, Entry.ref r)],
             heap := heapSet st.heap r
               (setFields u newn comment url false
                 (BaseRef.exprStr (.ident oldn))),
             next := st.next }, newn) ∧
    alookup (st.table ++ [(newn, Entry.ref r)]) oldn = some (Entry.ref r) ∧
    alookup (heapSet st.heap r
        (setFields u newn comment url false (BaseRef.exprStr (.ident oldn)))) r =
      some (setFields u newn comment url false (BaseRef.exprStr (.ident oldn))) ∧
    (setFields u newn comment url false (BaseRef.exprStr (.ident oldn))).names =
      [(newn, 1)] ∧
    (setFields u newn comment url false (BaseRef.exprStr (.ident oldn))).comment =
      comment ∧
    (setFields u newn comment url false (BaseRef.exprStr (.ident oldn))).url =
      url ∧
    (setFields u newn comment url false (BaseRef.exprStr (.ident oldn))).prefixed =
      false ∧
    (setFields u newn comment url false (BaseRef.exprStr (.ident oldn))).baseunit =
      BaseRef.exprStr (.ident oldn) := by
  refine ⟨?_, alookup_append_some _ hold, alookup_heapSet_self _ hheap,
    rfl, rfl, rfl, rfl, rfl⟩
  simp [addUnit, addUnitEval, evalExpr, hold, hheap, hnew]

/-- Fixture for the C10 witness: the metre-like unit. -/
def mW10 : PhysicalUnit := mkUnit "m" 1 [1, 0, 0, 0, 0, 0, 0, 0, 0] 0 "" ""

/-- Fixture for the C10 witness: a registry holding only the metre. -/
def stW10 : RegState :=
  { table := [("m", Entry.ref 0)], heap := [(0, mW10)], next := 1 }

/-- Witness for C10: registering metre as a new name for the existing m
entry mutates the registry object in place. -/
theorem C10_witness :
    addUnit stW10 "metre" (.expr (.ident "m")) "Metre" false BaseRef.null "" =
      .ok ({ table := stW10.table ++ [("metre", Entry.ref 0)],
             heap := heapSet stW10.heap 0
               (setFields mW10 "metre" "Metre" "" false
                 (BaseRef.exprStr (.ident "m"))),
             next := stW10.next }, "metre") ∧
    alookup (stW10.table ++ [("metre", Entry.ref 0)]) "m" = some (Entry.ref 0) ∧
    alookup (heapSet stW10.heap 0
        (setFields mW10 "metre" "Metre" "" false (BaseRef.exprStr (.ident "m")))) 0 =
      some (setFields mW10 "metre" "Metre" "" false (BaseRef.exprStr (.ident "m"))) ∧
    (setFields mW10 "metre" "Metre" "" false (BaseRef.exprStr (.ident "m"))).names =
      [("metre", 1)] ∧
    (setFields mW10 "metre" "Metre" "" false (BaseRef.exprStr (.ident "m"))).comment =
      "Metre" ∧
    (setFields mW10 "metre" "Metre" "" false (BaseRef.exprStr (.ident "m"))).url =
      "" ∧
    (setFields mW10 "metre" "Metre" "" false (BaseRef.exprStr (.ident "m"))).prefixed =
      false ∧
    (setFields mW10 "metre" "Metre" "" false (BaseRef.exprStr (.ident "m"))).baseunit =
      BaseRef.exprStr (.ident "m") :=
  C10_addUnit_bare_name_mutates stW10 "m" "metre" "Metre" "" 0 mW10
    (by decide) (by decide) (by decide)
